import Mathlib

/-!
Verification of the snake-game core of `src/main.js`.

The grid constants, the direction table `DIR`, `isOpposite`, `randomFreeCell`,
the state reset `initGame` and the input handler `update` are embedded from
the source.  The timer callback of `initGame` invokes an identifier
`stepSnake` that is defined nowhere in the source, so the step operation
itself is modelled from the specification (§4.2 `step()`).

Randomness (`Math.random`) is embedded by explicit parameters: the rejection
sampler `randomFreeCell` receives its stream of samples as a function
`Nat → Cell`, and the engine operations receive a food-placement oracle
`randFood : List Cell → Cell` standing for the call `randomFreeCell(snake)`.
-/

set_option autoImplicit false

namespace SnakeGame

/-- Number of tile columns (`const COLS = 40`, src/main.js). -/
def COLS : Int := 40

/-- Number of tile rows (`const ROWS = 30`, src/main.js). -/
def ROWS : Int := 30

/-- A grid cell `{x, y}` as used throughout src/main.js.  Coordinates are
integers; a computed new head may leave `[0,COLS)×[0,ROWS)`. -/
structure Cell where
  x : Int
  y : Int
deriving DecidableEq, Repr

/-- A movement direction, an entry of the `DIR` table: unit offsets. -/
structure Direction where
  x : Int
  y : Int
deriving DecidableEq, Repr

/-- `DIR.left = { x: -1, y: 0 }`. -/
def dirLeft : Direction := ⟨-1, 0⟩

/-- `DIR.right = { x: 1, y: 0 }`. -/
def dirRight : Direction := ⟨1, 0⟩

/-- `DIR.up = { x: 0, y: -1 }`. -/
def dirUp : Direction := ⟨0, -1⟩

/-- `DIR.down = { x: 0, y: 1 }`. -/
def dirDown : Direction := ⟨0, 1⟩

/-- `isOpposite(a, b)` from src/main.js lines 90-92:
`a.x === -b.x && a.y === -b.y`. -/
def isOpposite (a b : Direction) : Bool :=
  a.x == -b.x && a.y == -b.y

/-- A cell lies inside the playing field `[0,COLS) × [0,ROWS)`. -/
def inGrid (c : Cell) : Prop :=
  0 ≤ c.x ∧ c.x < COLS ∧ 0 ≤ c.y ∧ c.y < ROWS

instance (c : Cell) : Decidable (inGrid c) := by
  unfold inGrid; infer_instance

/-- The rejection-sampling loop of `randomFreeCell(excludeCells)`
(src/main.js lines 76-83), with the random samples made explicit:
`rand i` is the i-th pair `(Math.floor(Math.random()*COLS),
Math.floor(Math.random()*ROWS))`, `i` the index of the next sample and
`fuel` a bound on the number of attempts observed; the JS `while (true)`
corresponds to letting `fuel` be arbitrary.  The JS membership test uses a
set of strings `x + "," + y`, an injective encoding of cells, so it is the
same test as list membership here. -/
def randomFreeCellLoop (occupied : List Cell) (rand : Nat → Cell) :
    Nat → Nat → Option Cell
  | _, 0 => none
  | i, fuel + 1 =>
    if rand i ∈ occupied then randomFreeCellLoop occupied rand (i + 1) fuel
    else some (rand i)

/-- The whole mutable engine state of src/main.js: `snake` (index 0 = head),
`direction`, `nextDirection`, `food`, `score`, and the game-over flag (the
source tracks it through the presence of `gameOverText`). -/
structure GameState where
  snake : List Cell
  direction : Direction
  nextDirection : Direction
  food : Cell
  score : Nat
  gameOver : Bool
deriving DecidableEq, Repr

/-- `Math.floor(COLS / 2)` (src/main.js line 143). -/
def startX : Int := COLS / 2

/-- `Math.floor(ROWS / 2)` (src/main.js line 144). -/
def startY : Int := ROWS / 2

/-- The initial 3-segment snake of `initGame` (src/main.js lines 147-151). -/
def initSnake : List Cell :=
  [⟨startX, startY⟩, ⟨startX - 1, startY⟩, ⟨startX - 2, startY⟩]

/-- The state produced by `initGame()` (src/main.js lines 130-195), with the
call `randomFreeCell(snake)` abstracted into the oracle `randFood`.
Rendering, timer and text bookkeeping of `initGame` are presentation-only
and carry no simulation state. -/
def initGame (randFood : List Cell → Cell) : GameState :=
  { snake := initSnake
    direction := dirRight
    nextDirection := dirRight
    food := randFood initSnake
    score := 0
    gameOver := false }

/-- One direction request, as handled by `update()` (src/main.js lines
203-219): a requested direction `d` is stored into `nextDirection` exactly
when `!isOpposite(d, direction)`; otherwise the state is untouched. -/
def setPendingDirection (g : GameState) (d : Direction) : GameState :=
  if isOpposite d g.direction then g else { g with nextDirection := d }

instance : Inhabited Cell := ⟨⟨0, 0⟩⟩

/-- The head cell plus the committed direction offset. -/
def newHead (g : GameState) : Cell :=
  ⟨g.snake.headI.x + g.nextDirection.x, g.snake.headI.y + g.nextDirection.y⟩

/-- Modelled from the spec: the timer created in `initGame` (src/main.js
lines 184-188) invokes `stepSnake`, but no function of that name exists in
the source.  This definition follows §4.2 `step()` of the spec word for
word: no-op when GameOver; commit `direction = pendingDirection`; compute
the new head without wrapping; boundary collision then self collision
(the tail cell is exempt from the self check exactly when the step does not
eat food, realised by checking against the body without its last element);
on eating, grow at the head, add the fixed reward `inc` to the score and
respawn food via the oracle `randFood` (standing for
`randomFreeCell(newSnake)`); otherwise move by inserting the new head and
removing the last element. -/
def stepSnake (inc : Nat) (randFood : List Cell → Cell) (g : GameState) :
    GameState :=
  if g.gameOver then g
  else
    let nh := newHead g
    if ¬ inGrid nh then
      { g with direction := g.nextDirection, gameOver := true }
    else
      let checkCells := if nh = g.food then g.snake else g.snake.dropLast
      if nh ∈ checkCells then
        { g with direction := g.nextDirection, gameOver := true }
      else if nh = g.food then
        let newSnake := nh :: g.snake
        { g with
            direction := g.nextDirection
            snake := newSnake
            score := g.score + inc
            food := randFood newSnake }
      else
        { g with
            direction := g.nextDirection
            snake := nh :: g.snake.dropLast }

/-- The names of the functions declared in src/main.js, in source order. -/
def sourceFunctionNames : List String :=
  ["gridToPixelCenter", "randomFreeCell", "isOpposite", "preload",
   "create", "initGame", "update"]

/-- The identifier invoked by the periodic timer callback registered in
`initGame` (src/main.js line 187: `callback: () => stepSnake.call(this)`). -/
def timerCallbackName : String := "stepSnake"

/-- A concrete food-placement oracle used to instantiate theorems: always
proposes the cell (0, 0). -/
def constFood : List Cell → Cell := fun _ => ⟨0, 0⟩

/-- A concrete sample stream enumerating the grid row by row, used to
instantiate the termination theorem for `randomFreeCellLoop`. -/
def enumCell (n : Nat) : Cell :=
  ⟨(n % 40 : Nat), ((n / 40) % 30 : Nat)⟩

/-- Scenario 1 of the spec: grid 40×30, snake `[(20,15),(19,15),(18,15)]`,
direction right, food at `(21,15)`. -/
def scenario1 : GameState :=
  { snake := [⟨20, 15⟩, ⟨19, 15⟩, ⟨18, 15⟩]
    direction := dirRight
    nextDirection := dirRight
    food := ⟨21, 15⟩
    score := 0
    gameOver := false }

/-- Scenario 2 of the spec: snake head at `(0,15)`, direction left. -/
def scenario2 : GameState :=
  { snake := [⟨0, 15⟩, ⟨1, 15⟩, ⟨2, 15⟩]
    direction := dirLeft
    nextDirection := dirLeft
    food := ⟨5, 5⟩
    score := 0
    gameOver := false }

/-- A concrete GameOver state, used to instantiate the no-op theorem. -/
def scenarioOver : GameState :=
  { snake := [⟨0, 15⟩, ⟨1, 15⟩, ⟨2, 15⟩]
    direction := dirLeft
    nextDirection := dirLeft
    food := ⟨5, 5⟩
    score := 7
    gameOver := true }

/-! ## Branch lemmas for the step operation -/

/-- While GameOver, a step changes nothing. -/
theorem stepSnake_of_gameOver (inc : Nat) (rf : List Cell → Cell)
    (g : GameState) (h : g.gameOver = true) : stepSnake inc rf g = g := by
  simp [stepSnake, h]

/-- Boundary-collision branch of the step operation. -/
theorem stepSnake_out (inc : Nat) (rf : List Cell → Cell) (g : GameState)
    (h0 : g.gameOver = false) (h1 : ¬ inGrid (newHead g)) :
    stepSnake inc rf g =
      { g with direction := g.nextDirection, gameOver := true } := by
  simp [stepSnake, h0, h1]

/-- Self-collision branch of the step operation. -/
theorem stepSnake_collide (inc : Nat) (rf : List Cell → Cell) (g : GameState)
    (h0 : g.gameOver = false) (h1 : inGrid (newHead g))
    (h2 : newHead g ∈
      (if newHead g = g.food then g.snake else g.snake.dropLast)) :
    stepSnake inc rf g =
      { g with direction := g.nextDirection, gameOver := true } := by
  simp only [stepSnake]
  split_ifs <;> simp_all

/-- Eating branch of the step operation. -/
theorem stepSnake_eat (inc : Nat) (rf : List Cell → Cell) (g : GameState)
    (h0 : g.gameOver = false) (h1 : inGrid (newHead g))
    (h2 : newHead g ∉ g.snake) (h3 : newHead g = g.food) :
    stepSnake inc rf g =
      { g with
          direction := g.nextDirection
          snake := newHead g :: g.snake
          score := g.score + inc
          food := rf (newHead g :: g.snake) } := by
  simp only [stepSnake]
  split_ifs <;> simp_all

/-- Plain-move branch of the step operation. -/
theorem stepSnake_move (inc : Nat) (rf : List Cell → Cell) (g : GameState)
    (h0 : g.gameOver = false) (h1 : inGrid (newHead g))
    (h2 : newHead g ∉ g.snake.dropLast) (h3 : newHead g ≠ g.food) :
    stepSnake inc rf g =
      { g with
          direction := g.nextDirection
          snake := newHead g :: g.snake.dropLast } := by
  simp [stepSnake, h0, h1, h3, h2]

/-! ## Claim theorems -/

/-- C1: the identifier `stepSnake` invoked by the timer callback of
`initGame` is the name of no function declared in src/main.js, so the step
operation is undefined; moreover the only other per-frame operation of the
source, the direction handler embodied in `setPendingDirection`, never
changes the snake, the food, the score or the game-over flag, so no defined
operation of the program advances the snake, raises the score after
initialization, or reaches GameOver. -/
theorem C1_step_operation_undefined :
    timerCallbackName ∉ sourceFunctionNames ∧
    ∀ (g : GameState) (d : Direction),
      (setPendingDirection g d).snake = g.snake ∧
      (setPendingDirection g d).food = g.food ∧
      (setPendingDirection g d).score = g.score ∧
      (setPendingDirection g d).gameOver = g.gameOver := by
  refine ⟨by decide, fun g d => ?_⟩
  unfold setPendingDirection
  split <;> simp

/-- C5: a requested direction `d` is stored into the pending slot exactly
when it is not the opposite of the current direction; an opposite request
leaves the whole state unchanged; the current direction is never touched;
and if the pending slot did not hold the reversal of the current direction
before, it does not afterwards. -/
theorem C5_setPendingDirection_spec (g : GameState) (d : Direction) :
    (isOpposite d g.direction = false →
      (setPendingDirection g d).nextDirection = d) ∧
    (isOpposite d g.direction = true → setPendingDirection g d = g) ∧
    (setPendingDirection g d).direction = g.direction ∧
    (isOpposite g.nextDirection g.direction = false →
      isOpposite (setPendingDirection g d).nextDirection
        (setPendingDirection g d).direction = false) := by
  unfold setPendingDirection
  by_cases h : isOpposite d g.direction
  · rw [if_pos h]
    exact ⟨fun hc => absurd h (by simp [hc]), fun _ => rfl, rfl, fun hp => hp⟩
  · rw [if_neg h]
    refine ⟨fun _ => rfl, fun hc => absurd hc (by simpa using h), rfl, ?_⟩
    intro
    simpa using h

/-- Witness for C5 at Scenario 1: direction is right, so a `left` request is
dropped and an `up` request is stored. -/
theorem C5_witness :
    setPendingDirection scenario1 dirLeft = scenario1 ∧
    (setPendingDirection scenario1 dirUp).nextDirection = dirUp := by
  exact ⟨(C5_setPendingDirection_spec scenario1 dirLeft).2.1 (by decide),
    (C5_setPendingDirection_spec scenario1 dirUp).1 (by decide)⟩

/-- C6: while Running, a step commits the pending direction as the current
direction; hence an accepted (non-opposite) request `d` followed
immediately by a step yields current direction `d`. -/
theorem C6_pending_direction_committed (inc : Nat) (rf : List Cell → Cell)
    (g : GameState) (d : Direction) (hRun : g.gameOver = false)
    (hValid : isOpposite d g.direction = false) :
    (stepSnake inc rf g).direction = g.nextDirection ∧
    (stepSnake inc rf (setPendingDirection g d)).direction = d := by
  have commit : ∀ (g₂ : GameState), g₂.gameOver = false →
      (stepSnake inc rf g₂).direction = g₂.nextDirection := by
    intro g₂ h₂
    simp only [stepSnake]
    split_ifs <;> simp_all
  refine ⟨commit g hRun, ?_⟩
  have hset : setPendingDirection g d = { g with nextDirection := d } := by
    unfold setPendingDirection
    rw [if_neg (by simp [hValid])]
  rw [hset, commit { g with nextDirection := d } hRun]

/-- Witness for C6 at Scenario 1 with an `up` request. -/
theorem C6_witness :
    (stepSnake 10 constFood scenario1).direction = scenario1.nextDirection ∧
    (stepSnake 10 constFood
        (setPendingDirection scenario1 dirUp)).direction = dirUp := by
  exact C6_pending_direction_committed 10 constFood scenario1 dirUp rfl
    (by decide)

/-- C7: while GameOver, any number of steps is a silent no-op: the whole
state, in particular snake, food, score and the GameOver flag, is
unchanged. -/
theorem C7_step_noop_after_gameOver (inc : Nat) (rf : List Cell → Cell)
    (g : GameState) (n : Nat) (h : g.gameOver = true) :
    (stepSnake inc rf)^[n] g = g := by
  induction n with
  | zero => rfl
  | succ k ih =>
    rw [Function.iterate_succ_apply, stepSnake_of_gameOver inc rf g h, ih]

/-- Witness for C7: five steps from a concrete GameOver state. -/
theorem C7_witness : (stepSnake 10 constFood)^[5] scenarioOver = scenarioOver :=
  C7_step_noop_after_gameOver 10 constFood scenarioOver 5 rfl

/-- C2: in a Running state whose new head is inside the grid and collides
with no checked body cell, a step that eats (new head = food) inserts the
new head at index 0, keeps the tail so the length grows by exactly one,
adds the fixed increment to the score, and respawns the food off the new
snake; a step that does not eat inserts the new head at index 0 and drops
the last element, keeping the length; the two outcomes are mutually
exclusive by the stated conditions. -/
theorem C2_step_eat_or_move (inc : Nat) (rf : List Cell → Cell)
    (g : GameState) (hRun : g.gameOver = false) (hne : g.snake ≠ [])
    (hIn : inGrid (newHead g))
    (hMiss : newHead g ∉
      (if newHead g = g.food then g.snake else g.snake.dropLast))
    (hFresh : rf (newHead g :: g.snake) ∉ newHead g :: g.snake) :
    (newHead g = g.food →
      (stepSnake inc rf g).snake = newHead g :: g.snake ∧
      (stepSnake inc rf g).snake.length = g.snake.length + 1 ∧
      (stepSnake inc rf g).score = g.score + inc ∧
      (stepSnake inc rf g).food ∉ (stepSnake inc rf g).snake) ∧
    (newHead g ≠ g.food →
      (stepSnake inc rf g).snake = newHead g :: g.snake.dropLast ∧
      (stepSnake inc rf g).snake.length = g.snake.length ∧
      (stepSnake inc rf g).score = g.score ∧
      (stepSnake inc rf g).food = g.food) := by
  constructor
  · intro heat
    rw [if_pos heat] at hMiss
    rw [stepSnake_eat inc rf g hRun hIn hMiss heat]
    exact ⟨rfl, by simp, rfl, hFresh⟩
  · intro hneq
    rw [if_neg hneq] at hMiss
    rw [stepSnake_move inc rf g hRun hIn hMiss hneq]
    refine ⟨rfl, ?_, rfl, rfl⟩
    have hpos : 0 < g.snake.length := List.length_pos.mpr hne
    simp [List.length_dropLast]
    omega

/-- Witness for C2: Scenario 1 of the spec, with score increment 10 and
the constant food oracle. -/
theorem C2_witness :
    (stepSnake 10 constFood scenario1).snake =
      [⟨21, 15⟩, ⟨20, 15⟩, ⟨19, 15⟩, ⟨18, 15⟩] ∧
    (stepSnake 10 constFood scenario1).snake.length = 4 ∧
    (stepSnake 10 constFood scenario1).score = 10 ∧
    (stepSnake 10 constFood scenario1).food ∉
      (stepSnake 10 constFood scenario1).snake := by
  obtain ⟨e1, e2, e3, e4⟩ :=
    (C2_step_eat_or_move 10 constFood scenario1 rfl (by decide) (by decide)
      (by decide) (by decide)).1 (by decide)
  refine ⟨?_, ?_, ?_, e4⟩
  · rw [e1]; rfl
  · rw [e2]; rfl
  · rw [e3]; rfl

/-- C3: while Running, a step ends in GameOver exactly when the new head is
outside the grid or hits a checked body cell (the whole body when the step
eats, the body without its tail cell otherwise); on such a transition the
snake, the food and the score keep their pre-step values. -/
theorem C3_gameOver_characterisation (inc : Nat) (rf : List Cell → Cell)
    (g : GameState) (hRun : g.gameOver = false) :
    ((stepSnake inc rf g).gameOver = true ↔
      ¬ inGrid (newHead g) ∨
        newHead g ∈
          (if newHead g = g.food then g.snake else g.snake.dropLast)) ∧
    ((stepSnake inc rf g).gameOver = true →
      (stepSnake inc rf g).snake = g.snake ∧
      (stepSnake inc rf g).food = g.food ∧
      (stepSnake inc rf g).score = g.score) := by
  by_cases hIn : inGrid (newHead g)
  · by_cases hHit : newHead g ∈
        (if newHead g = g.food then g.snake else g.snake.dropLast)
    · rw [stepSnake_collide inc rf g hRun hIn hHit]
      exact ⟨by simp [hHit], fun _ => ⟨rfl, rfl, rfl⟩⟩
    · by_cases heat : newHead g = g.food
      · rw [stepSnake_eat inc rf g hRun hIn
          (by rw [if_pos heat] at hHit; exact hHit) heat]
        simp [hIn, hHit, hRun]
      · rw [stepSnake_move inc rf g hRun hIn
          (by rw [if_neg heat] at hHit; exact hHit) heat]
        simp [hIn, hHit, hRun]
  · rw [stepSnake_out inc rf g hRun hIn]
    exact ⟨by simp [hIn], fun _ => ⟨rfl, rfl, rfl⟩⟩

/-- Witness for C3: Scenario 2 of the spec, a boundary collision: the step
ends in GameOver with snake, food and score unchanged. -/
theorem C3_witness :
    (stepSnake 10 constFood scenario2).gameOver = true ∧
    (stepSnake 10 constFood scenario2).snake = scenario2.snake ∧
    (stepSnake 10 constFood scenario2).food = scenario2.food ∧
    (stepSnake 10 constFood scenario2).score = scenario2.score := by
  have h := C3_gameOver_characterisation 10 constFood scenario2 rfl
  have hover : (stepSnake 10 constFood scenario2).gameOver = true :=
    h.1.mpr (Or.inl (by decide))
  exact ⟨hover, h.2 hover⟩

/-- C4: the state produced by the restart operation has the exact 3-cell
horizontal snake centred on the grid (head first), both direction slots
equal to right, score 0, state Running, and (for any food oracle meeting
the contract of `randomFreeCell`) a food cell inside the grid and off the
snake. -/
theorem C4_initGame_state (rf : List Cell → Cell)
    (hIn : inGrid (rf initSnake)) (hFree : rf initSnake ∉ initSnake) :
    (initGame rf).snake =
      [⟨COLS / 2, ROWS / 2⟩, ⟨COLS / 2 - 1, ROWS / 2⟩,
       ⟨COLS / 2 - 2, ROWS / 2⟩] ∧
    (initGame rf).snake.length = 3 ∧
    (initGame rf).direction = dirRight ∧
    (initGame rf).nextDirection = dirRight ∧
    (initGame rf).score = 0 ∧
    (initGame rf).gameOver = false ∧
    inGrid (initGame rf).food ∧
    (initGame rf).food ∉ (initGame rf).snake :=
  ⟨rfl, rfl, rfl, rfl, rfl, rfl, hIn, hFree⟩

/-- Witness for C4 with the constant food oracle. -/
theorem C4_witness :
    (initGame constFood).snake =
      [⟨COLS / 2, ROWS / 2⟩, ⟨COLS / 2 - 1, ROWS / 2⟩,
       ⟨COLS / 2 - 2, ROWS / 2⟩] ∧
    (initGame constFood).snake.length = 3 ∧
    (initGame constFood).direction = dirRight ∧
    (initGame constFood).nextDirection = dirRight ∧
    (initGame constFood).score = 0 ∧
    (initGame constFood).gameOver = false ∧
    inGrid (initGame constFood).food ∧
    (initGame constFood).food ∉ (initGame constFood).snake :=
  C4_initGame_state constFood (by decide) (by decide)

/-- C8: the restart state has pairwise-distinct snake cells, and a step
from any state with pairwise-distinct snake cells yields again
pairwise-distinct snake cells, so the invariant holds at all times while
Running. -/
theorem C8_snake_nodup (inc : Nat) (rf : List Cell → Cell) (g : GameState)
    (hN : g.snake.Nodup) :
    (initGame rf).snake.Nodup ∧ (stepSnake inc rf g).snake.Nodup := by
  refine ⟨(by decide : initSnake.Nodup), ?_⟩
  by_cases hOver : g.gameOver = true
  · rw [stepSnake_of_gameOver inc rf g hOver]; exact hN
  · have hRun : g.gameOver = false := by
      rwa [Bool.not_eq_true] at hOver
    by_cases hIn : inGrid (newHead g)
    · by_cases hHit : newHead g ∈
          (if newHead g = g.food then g.snake else g.snake.dropLast)
      · rw [stepSnake_collide inc rf g hRun hIn hHit]; exact hN
      · by_cases heat : newHead g = g.food
        · rw [stepSnake_eat inc rf g hRun hIn
            (by rwa [if_pos heat] at hHit) heat]
          exact List.nodup_cons.mpr ⟨by rwa [if_pos heat] at hHit, hN⟩
        · rw [stepSnake_move inc rf g hRun hIn
            (by rwa [if_neg heat] at hHit) heat]
          exact List.nodup_cons.mpr ⟨by rwa [if_neg heat] at hHit,
            hN.sublist (List.dropLast_sublist g.snake)⟩
    · rw [stepSnake_out inc rf g hRun hIn]; exact hN

/-- Witness for C8 at Scenario 1 (its snake is pairwise distinct). -/
theorem C8_witness :
    (initGame constFood).snake.Nodup ∧
    (stepSnake 10 constFood scenario1).snake.Nodup :=
  C8_snake_nodup 10 constFood scenario1 (by decide)

/-- C9: if the food oracle honours the contract of `randomFreeCell` (its
proposal avoids the list it is given), the food cell differs from every
snake cell immediately after restart, and this is preserved by every step,
including a growth step, which respawns food off the grown snake. -/
theorem C9_food_off_snake (inc : Nat) (rf : List Cell → Cell)
    (g : GameState) (hInit : rf initSnake ∉ initSnake)
    (hInv : g.food ∉ g.snake)
    (hFresh : rf (newHead g :: g.snake) ∉ newHead g :: g.snake) :
    (initGame rf).food ∉ (initGame rf).snake ∧
    (stepSnake inc rf g).food ∉ (stepSnake inc rf g).snake := by
  refine ⟨hInit, ?_⟩
  by_cases hOver : g.gameOver = true
  · rw [stepSnake_of_gameOver inc rf g hOver]; exact hInv
  · have hRun : g.gameOver = false := by
      rwa [Bool.not_eq_true] at hOver
    by_cases hIn : inGrid (newHead g)
    · by_cases hHit : newHead g ∈
          (if newHead g = g.food then g.snake else g.snake.dropLast)
      · rw [stepSnake_collide inc rf g hRun hIn hHit]; exact hInv
      · by_cases heat : newHead g = g.food
        · rw [stepSnake_eat inc rf g hRun hIn
            (by rwa [if_pos heat] at hHit) heat]
          exact hFresh
        · rw [stepSnake_move inc rf g hRun hIn
            (by rwa [if_neg heat] at hHit) heat]
          intro hmem
          rcases List.mem_cons.mp hmem with hcase | hcase
          · exact heat hcase.symm
          · exact hInv ((List.dropLast_sublist g.snake).subset hcase)
    · rw [stepSnake_out inc rf g hRun hIn]; exact hInv

/-- Witness for C9 at Scenario 1 with the constant food oracle. -/
theorem C9_witness :
    (initGame constFood).food ∉ (initGame constFood).snake ∧
    (stepSnake 10 constFood scenario1).food ∉
      (stepSnake 10 constFood scenario1).snake :=
  C9_food_off_snake 10 constFood scenario1 (by decide) (by decide) (by decide)

/-- Whatever the rejection-sampling loop returns was one of the samples and
is not occupied. -/
theorem randomFreeCellLoop_some (occupied : List Cell) (rand : Nat → Cell) :
    ∀ (fuel i : Nat) (c : Cell),
      randomFreeCellLoop occupied rand i fuel = some c →
      c ∉ occupied ∧ ∃ j, rand j = c := by
  intro fuel
  induction fuel with
  | zero => intro i c h; simp [randomFreeCellLoop] at h
  | succ k ih =>
    intro i c h
    simp only [randomFreeCellLoop] at h
    by_cases hm : rand i ∈ occupied
    · rw [if_pos hm] at h
      exact ih (i + 1) c h
    · rw [if_neg hm] at h
      obtain rfl : rand i = c := by simpa using h
      exact ⟨hm, i, rfl⟩

/-- If the sample at index `i + n` is free, the loop started at `i` with
`n + 1` attempts of fuel succeeds. -/
theorem randomFreeCellLoop_finds (occupied : List Cell) (rand : Nat → Cell) :
    ∀ (n i : Nat), rand (i + n) ∉ occupied →
      ∃ c, randomFreeCellLoop occupied rand i (n + 1) = some c := by
  intro n
  induction n with
  | zero =>
    intro i h
    refine ⟨rand i, ?_⟩
    simp only [randomFreeCellLoop]
    rw [if_neg (by simpa using h)]
  | succ k ih =>
    intro i h
    by_cases hm : rand i ∈ occupied
    · obtain ⟨c, hc⟩ := ih (i + 1) (by rw [show i + 1 + k = i + (k + 1) by omega]; exact h)
      exact ⟨c, by simp only [randomFreeCellLoop]; rw [if_pos hm]; exact hc⟩
    · exact ⟨rand i, by simp only [randomFreeCellLoop]; rw [if_neg hm]⟩

/-- If every sample is occupied, the loop returns nothing for any fuel:
the JS `while (true)` never exits. -/
theorem randomFreeCellLoop_none (occupied : List Cell) (rand : Nat → Cell)
    (hall : ∀ i, rand i ∈ occupied) :
    ∀ (fuel i : Nat), randomFreeCellLoop occupied rand i fuel = none := by
  intro fuel
  induction fuel with
  | zero => intro i; rfl
  | succ k ih =>
    intro i
    simp only [randomFreeCellLoop]
    rw [if_pos (hall i)]
    exact ih (i + 1)

/-- Every sample of the enumerating stream lies in the grid. -/
theorem enumCell_inGrid : ∀ i, inGrid (enumCell i) := by
  intro i
  simp only [enumCell, inGrid, COLS, ROWS]
  omega

/-- The enumerating stream reaches every grid cell. -/
theorem enumCell_fair : ∀ c, inGrid c → ∃ i, enumCell i = c := by
  intro c hc
  obtain ⟨cx, cy⟩ := c
  simp only [inGrid, COLS, ROWS] at hc
  refine ⟨cx.toNat + 40 * cy.toNat, ?_⟩
  simp only [enumCell, Cell.mk.injEq]
  constructor <;> omega

/-- C10: for a sample stream staying in the grid (as `Math.floor(
Math.random()*COLS)` does), if the stream reaches every grid cell — which
uniform sampling does with probability one — and at least one grid cell is
free, the rejection loop of `randomFreeCell` terminates with a free grid
cell; if every grid cell is occupied, it returns nothing at every fuel
bound, i.e. the call never returns. -/
theorem C10_randomFreeCell_terminates (occupied : List Cell)
    (rand : Nat → Cell) (hGrid : ∀ i, inGrid (rand i)) :
    ((∀ c, inGrid c → ∃ i, rand i = c) →
      (∃ c, inGrid c ∧ c ∉ occupied) →
      ∃ fuel c, randomFreeCellLoop occupied rand 0 fuel = some c ∧
        inGrid c ∧ c ∉ occupied) ∧
    ((∀ c, inGrid c → c ∈ occupied) →
      ∀ fuel i, randomFreeCellLoop occupied rand i fuel = none) := by
  constructor
  · intro hFair hFree
    obtain ⟨c, hcg, hcn⟩ := hFree
    obtain ⟨j, hj⟩ := hFair c hcg
    have hmem : rand (0 + j) ∉ occupied := by rw [Nat.zero_add, hj]; exact hcn
    obtain ⟨c₂, hc₂⟩ := randomFreeCellLoop_finds occupied rand j 0 hmem
    obtain ⟨hno, j₂, hj₂⟩ :=
      randomFreeCellLoop_some occupied rand (j + 1) 0 c₂ hc₂
    exact ⟨j + 1, c₂, hc₂, by rw [← hj₂]; exact hGrid j₂, hno⟩
  · intro hAll fuel i
    exact randomFreeCellLoop_none occupied rand
      (fun k => hAll (rand k) (hGrid k)) fuel i

/-- Witness for C10: with the cell (0,0) occupied and the fair enumerating
stream, the loop finds a free grid cell. -/
theorem C10_witness :
    ∃ fuel c, randomFreeCellLoop [⟨0, 0⟩] enumCell 0 fuel = some c ∧
      inGrid c ∧ c ∉ [(⟨0, 0⟩ : Cell)] :=
  (C10_randomFreeCell_terminates [⟨0, 0⟩] enumCell enumCell_inGrid).1
    enumCell_fair ⟨⟨1, 0⟩, by decide, by decide⟩

end SnakeGame
